import Mathlib

/-!
Shallow embedding of `src/data/databento_stream.py`, a market-data
normalization bridge: it maps provider records (trades, bars, top-of-book
quotes, status and error notices) to a line-oriented JSON event stream, in
an unbounded live mode and a bounded historical mode.

Modelling conventions:
  * Python dicts emitted as JSON lines are association lists
    `List (String × JVal)` in insertion order (Python dicts preserve it).
  * Python floats are modelled as exact rationals; the claims about prices
    only demand equality "within floating-point precision".
  * Python exceptions are explicit: `Except` for pure code,
    and for the stateful runners a `PyFlow` value distinguishing
    `SystemExit` (raised by `sys.exit`, a `BaseException` that an
    `except Exception` clause does NOT catch) from ordinary exceptions.
  * The output pipe is modelled by an optional break point: the first `k`
    writes succeed, every later write raises `BrokenPipeError`.
-/

set_option autoImplicit false

namespace Databento

/-- A JSON value as produced by `json.dumps` on the dicts the script builds:
strings, integers, floats (exact rationals here), `None`/null, and — only in
the `historical` aggregate — an array of record objects. -/
inductive JVal where
  | str (s : String)
  | int (n : Int)
  | num (q : ℚ)
  | null
  | arr (records : List (List (String × JVal)))

/-- One emitted JSON object (a Python dict), keys in insertion order. -/
abbrev Obj := List (String × JVal)

/-- The Python value handed to `format_timestamp` as `record.ts_event`:
either an `int` (nanoseconds since epoch) or some other value, carried here
by its `str(...)` form, which is all the code uses of it. -/
inductive PyVal where
  | int (n : Int)
  | other (strForm : String)
  deriving Repr, DecidableEq

/-- Left-pad the decimal form of `n` with zeros to width `w`
(as Python %0wd formatting inside `datetime.isoformat`). -/
def padNum (w : Nat) (n : Nat) : String :=
  let s := toString n
  String.mk (List.replicate (w - s.length) '0') ++ s

/-- Proleptic Gregorian civil date from a shifted day number
`z = days since 1970-01-01 + 719468` (so `z = 0` is 0000-03-01).
Returns `(year, month, day)`. Standard era-based algorithm, the one the
CPython `datetime` ordinal arithmetic is equivalent to. -/
def civilFromDays (z : Nat) : Nat × Nat × Nat :=
  let era := z / 146097
  let doe := z % 146097
  let yoe := (doe - doe / 1460 + doe / 36524 - doe / 146096) / 365
  let y := yoe + era * 400
  let doy := doe - (365 * yoe + yoe / 4 - yoe / 100)
  let mp := (5 * doy + 2) / 153
  let d := doy - (153 * mp + 2) / 5 + 1
  let m := if mp < 10 then mp + 3 else mp - 9
  (if m ≤ 2 then y + 1 else y, m, d)

/-- Render a UTC instant given as microseconds since the epoch the way
`datetime.isoformat()` renders an aware UTC datetime:
`YYYY-MM-DDTHH:MM:SS[.ffffff]+00:00`, the fractional part omitted when the
microsecond field is zero. -/
def isoformatUTC (usecTotal : Int) : String :=
  let u := (usecTotal.emod 1000000).toNat
  let secs := usecTotal.ediv 1000000
  let sod := (secs.emod 86400).toNat
  let days := secs.ediv 86400
  let z := (days + 719468).toNat
  let ymd := civilFromDays z
  padNum 4 ymd.1 ++ "-" ++ padNum 2 ymd.2.1 ++ "-" ++ padNum 2 ymd.2.2 ++ "T" ++
    padNum 2 (sod / 3600) ++ ":" ++ padNum 2 (sod % 3600 / 60) ++ ":" ++
    padNum 2 (sod % 60) ++
    (if u = 0 then "" else "." ++ padNum 6 u) ++ "+00:00"

/-- Microseconds of `datetime.min` (0001-01-01T00:00:00+00:00) relative to
the epoch: the smallest instant `datetime.fromtimestamp` accepts. -/
def minUsec : Int := -62135596800000000

/-- Microseconds of `datetime.max` (9999-12-31T23:59:59.999999+00:00)
relative to the epoch: the largest instant `fromtimestamp` accepts. -/
def maxUsec : Int := 253402300799999999

/-- `format_timestamp(ts_event)` from the source:
if the input is an `int` (nanoseconds), `seconds = ts_event / 1e9` and
`datetime.fromtimestamp(seconds, tz=timezone.utc).isoformat()`; otherwise
`str(ts_event)`. `fromtimestamp` keeps microsecond precision, i.e. it uses
`round(ts_event / 1000)` microseconds (CPython rounds half-to-even; this
model rounds half up — the difference only matters at exact half
microseconds, never exercised below), and raises
(`OverflowError` / `ValueError`) when the instant falls outside the
`datetime` range 0001-01-01..9999-12-31; that raise is the `Except.error`
branch. Non-`int` input can never fail. -/
def format_timestamp : PyVal → Except String String
  | .int n =>
    let usec : Int := (2 * n + 1000).fdiv 2000
    if minUsec ≤ usec ∧ usec ≤ maxUsec then .ok (isoformatUTC usec)
    else .error "timestamp out of range"
  | .other s => .ok s

/-- One price level of an `MBP1Msg`; each field is optional because the
source probes them with `hasattr`. Prices are provider fixed-point ints. -/
structure Level where
  bid_px : Option Int
  ask_px : Option Int
  bid_sz : Option Int
  ask_sz : Option Int
  deriving Repr, DecidableEq

/-- The provider record variants the source dispatches on via
`type(record).__name__`, with exactly the fields the source reads.
`action`/`side` on trades and `err`/`msg` on notices are optional
(`hasattr` probes); `otherMsg` stands for heartbeats and any record type
not named in the dispatch, which the loop ignores silently. -/
inductive RawRecord where
  | tradeMsg (ts_event : PyVal) (price : Int) (size : Int)
      (action : Option String) (side : Option String)
  | ohlcvMsg (ts_event : PyVal) (o : Int) (h : Int) (l : Int) (c : Int)
      (volume : Int)
  | mbp1Msg (ts_event : PyVal) (levels : List Level)
  | errorMsg (err : Option String)
  | systemMsg (msg : Option String)
  | otherMsg
  deriving Repr, DecidableEq

/-- `str(x)` of an optional attribute, `None` when absent, as in
`str(record.action) if hasattr(record, 'action') else None`. -/
def optStr : Option String → JVal
  | some s => .str s
  | none => .null

/-- Fixed-point price to float: `p / 1e9` (exact rational here). -/
def px (p : Int) : JVal := .num ((p : ℚ) / 10 ^ 9)

/-- The pure part of the live loop body for one record: the dict the source
would pass to `emit`, `none` when the record produces no output (heartbeats,
unknown types, a quote with an empty level list), or the exception message
when building the dict raises (only `format_timestamp` can). Mirrors the
`if/elif` dispatch of `run_live_stream` line by line, including key order. -/
def recordEvent (symbol : String) : RawRecord → Except String (Option Obj)
  | .tradeMsg ts p sz a sd => do
    let t ← format_timestamp ts
    pure (some [("type", .str "trade"), ("ts", .str t), ("price", px p),
      ("size", .int sz), ("symbol", .str symbol), ("action", optStr a),
      ("side", optStr sd)])
  | .ohlcvMsg ts o h l c v => do
    let t ← format_timestamp ts
    pure (some [("type", .str "ohlcv"), ("ts", .str t), ("open", px o),
      ("high", px h), ("low", px l), ("close", px c), ("volume", .int v),
      ("symbol", .str symbol)])
  | .mbp1Msg ts levels =>
    match levels with
    | [] => pure none
    | level :: _ => do
      let t ← format_timestamp ts
      pure (some [("type", .str "quote"), ("ts", .str t),
        ("bid", (level.bid_px.map (fun p => px p)).getD .null),
        ("ask", (level.ask_px.map (fun p => px p)).getD .null),
        ("bid_size", (level.bid_sz.map (fun n => JVal.int n)).getD .null),
        ("ask_size", (level.ask_sz.map (fun n => JVal.int n)).getD .null),
        ("symbol", .str symbol)])
  | .errorMsg err =>
    pure (some [("type", .str "error"),
      ("message", .str (err.getD "Unknown error"))])
  | .systemMsg msg =>
    pure (some [("type", .str "status"), ("message", .str "system"),
      ("detail", .str (msg.getD ""))])
  | .otherMsg => pure none

/-- One observable action of a run: a JSON line written to the output
stream, or the `client.subscribe(...)` call (which writes nothing but whose
position in the trace matters for the lifecycle ordering). -/
inductive Act where
  | ev (e : Obj)
  | subscribe

/-- The JSON lines among a trace of actions, in order. -/
def eventsOf (tr : List Act) : List Obj :=
  tr.filterMap fun a => match a with | .ev e => some e | .subscribe => none

/-- Output-stream state. `brokenAfter = some k` models a downstream reader
that disconnects after consuming `k` lines: the first `k` writes succeed and
every later write raises `BrokenPipeError`; `none` models a reader that
never disconnects. `nWritten` counts successful writes. -/
structure OutState where
  brokenAfter : Option Nat
  nWritten : Nat
  trace : List Act

/-- `emit(data)` from the source: `print(json.dumps(data), flush=True)`,
and on `BrokenPipeError` `sys.exit(0)`. The second component is the exit
code when `sys.exit` was called (the raised `SystemExit` propagates),
`none` when the write succeeded. -/
def emit (st : OutState) (e : Obj) : OutState × Option Nat :=
  match st.brokenAfter with
  | none =>
    ({ st with nWritten := st.nWritten + 1, trace := st.trace ++ [.ev e] },
      none)
  | some k =>
    if st.nWritten < k then
      ({ st with nWritten := st.nWritten + 1, trace := st.trace ++ [.ev e] },
        none)
    else (st, some 0)

/-- The `{"type": "status", "message": "shutting_down"}` line. -/
def shuttingDownObj : Obj :=
  [("type", .str "status"), ("message", .str "shutting_down")]

/-- `handle_sigterm` from the source, installed for SIGTERM and SIGINT:
emit the shutting-down status, then `sys.exit(0)`. When the emit itself
hits a broken pipe it already exits (with 0). Always returns an exit
code. -/
def handle_sigterm (st : OutState) : OutState × Nat :=
  match emit st shuttingDownObj with
  | (st', none) => (st', 0)
  | (st', some c) => (st', c)

/-- Abnormal control flow out of a block of Python code: `sysExit` is a
raised `SystemExit` (from `sys.exit`), which `except Exception` does not
catch because `SystemExit` derives from `BaseException` only; `exc` is an
ordinary `Exception` with its `str(e)` message. -/
inductive PyFlow where
  | sysExit (code : Nat)
  | exc (msg : String)

/-- The body of the live `for record in client` loop before its
`try/except`: build the record event (which may raise an ordinary
exception) and emit it (which may raise `SystemExit` via broken pipe). -/
def processRecord (symbol : String) (st : OutState) (r : RawRecord) :
    OutState × Option PyFlow :=
  match recordEvent symbol r with
  | .error m => (st, some (.exc m))
  | .ok none => (st, none)
  | .ok (some e) =>
    match emit st e with
    | (st', none) => (st', none)
    | (st', some c) => (st', some (.sysExit c))

/-- `{"type": "error", "message": m}`. -/
def errorObj (m : String) : Obj :=
  [("type", .str "error"), ("message", .str m)]

/-- The error line the per-record `except Exception` handler emits:
`{"type": "error", "message": f"Record processing error: {str(e)}"}`. -/
def procErrObj (m : String) : Obj :=
  errorObj ("Record processing error: " ++ m)

/-- One iteration of the live loop, `try/except Exception` included: an
ordinary exception becomes one emitted error line and the loop goes on; a
`SystemExit` (only from `emit` on broken pipe) propagates uncaught, as does
a `SystemExit` raised while emitting the error line itself. The second
component is the process exit code if the iteration exited. -/
def liveBodyStep (symbol : String) (st : OutState) (r : RawRecord) :
    OutState × Option Nat :=
  match processRecord symbol st r with
  | (st', none) => (st', none)
  | (st', some (.sysExit c)) => (st', some c)
  | (st', some (.exc m)) =>
    match emit st' (procErrObj m) with
    | (st'', none) => (st'', none)
    | (st'', some c) => (st'', some c)

/-- The live `for record in client:` loop over a (finite prefix of the)
record sequence the subscription delivers. -/
def liveLoop (symbol : String) (st : OutState) :
    List RawRecord → OutState × Option Nat
  | [] => (st, none)
  | r :: rs =>
    match liveBodyStep symbol st r with
    | (st', none) => liveLoop symbol st' rs
    | (st', some c) => (st', some c)

/-- `{"type": "status", "message": "connecting", "symbol": ..,
"schema": ..}`. -/
def connectingObj (symbol schema : String) : Obj :=
  [("type", .str "status"), ("message", .str "connecting"),
    ("symbol", .str symbol), ("schema", .str schema)]

/-- `{"type": "status", "message": "connected", "symbol": ..,
"schema": ..}`. -/
def connectedObj (symbol schema : String) : Obj :=
  [("type", .str "status"), ("message", .str "connected"),
    ("symbol", .str symbol), ("schema", .str schema)]

/-- `{"type": "status", "message": "streaming"}`. -/
def streamingObj : Obj :=
  [("type", .str "status"), ("message", .str "streaming")]

/-- `{"type": "status", "message": "disconnected"}`. -/
def disconnectedObj : Obj :=
  [("type", .str "status"), ("message", .str "disconnected")]

/-- `run_live_stream` from the source, after the `import databento`
check succeeded: emit "connecting"; inside `try`: subscribe
(`subscribeFault = some m` models `db.Live`/`client.subscribe` raising an
`Exception` with message `m`, caught by the outer `except Exception` which
emits an error line and calls `sys.exit(1)`), emit "connected" then
"streaming", run the loop over the records the subscription delivers, and
on normal end of stream emit "disconnected". Normal return from the
function ends the process with exit code 0. Returns the action trace and
the process exit code. -/
def run_live_stream (symbol schema : String) (brokenAfter : Option Nat)
    (subscribeFault : Option String) (records : List RawRecord) :
    List Act × Nat :=
  match emit ⟨brokenAfter, 0, []⟩ (connectingObj symbol schema) with
  | (st, some c) => (st.trace, c)
  | (st1, none) =>
    let st2 := { st1 with trace := st1.trace ++ [.subscribe] }
    match subscribeFault with
    | some m =>
      match emit st2 (errorObj m) with
      | (st3, none) => (st3.trace, 1)
      | (st3, some c) => (st3.trace, c)
    | none =>
      match emit st2 (connectedObj symbol schema) with
      | (st3, some c) => (st3.trace, c)
      | (st3, none) =>
        match emit st3 streamingObj with
        | (st4, some c) => (st4.trace, c)
        | (st4, none) =>
          match liveLoop symbol st4 records with
          | (st5, some c) => (st5.trace, c)
          | (st5, none) =>
            match emit st5 disconnectedObj with
            | (st6, none) => (st6.trace, 0)
            | (st6, some c) => (st6.trace, c)

/-- A live run interrupted by SIGTERM/SIGINT: the signal is delivered at
the loop boundary after `k` records have been processed (any `k ≥` the
feed length means after the whole feed), upon which the installed
`handle_sigterm` runs: it emits the shutting-down status and exits 0. The
raised `SystemExit` is caught nowhere — in particular not by the loop's
`except Exception` — whatever state the loop was in. Startup is as in
`run_live_stream` on the success path. -/
def run_live_stream_sig (symbol schema : String) (brokenAfter : Option Nat)
    (records : List RawRecord) (k : Nat) : List Act × Nat :=
  match emit ⟨brokenAfter, 0, []⟩ (connectingObj symbol schema) with
  | (st, some c) => (st.trace, c)
  | (st1, none) =>
    let st2 := { st1 with trace := st1.trace ++ [.subscribe] }
    match emit st2 (connectedObj symbol schema) with
    | (st3, some c) => (st3.trace, c)
    | (st3, none) =>
      match emit st3 streamingObj with
      | (st4, some c) => (st4.trace, c)
      | (st4, none) =>
        match liveLoop symbol st4 (records.take k) with
        | (st5, some c) => (st5.trace, c)
        | (st5, none) =>
          match handle_sigterm st5 with
          | (st6, c) => (st6.trace, c)

/-- `collect_record` from `run_historical`: append the mapped dict to the
local `records` list for `OHLCVMsg` and `TradeMsg` (note: the historical
trade dict has no `action`/`side` keys), ignore every other record type.
`format_timestamp` may raise, which propagates out of the replay. -/
def collect_record (symbol : String) (records : List Obj) :
    RawRecord → Except String (List Obj)
  | .ohlcvMsg ts o h l c v => do
    let t ← format_timestamp ts
    pure (records ++ [[("type", .str "ohlcv"), ("ts", .str t),
      ("open", px o), ("high", px h), ("low", px l), ("close", px c),
      ("volume", .int v), ("symbol", .str symbol)]])
  | .tradeMsg ts p sz _ _ => do
    let t ← format_timestamp ts
    pure (records ++ [[("type", .str "trade"), ("ts", .str t),
      ("price", px p), ("size", .int sz), ("symbol", .str symbol)]])
  | _ => pure records

/-- `data.replay(collect_record)`: apply `collect_record` to each record of
the fetched range in order; an exception raised by the callback aborts the
replay and propagates. -/
def replay (symbol : String) :
    List RawRecord → List Obj → Except String (List Obj)
  | [], acc => .ok acc
  | r :: rs, acc =>
    match collect_record symbol acc r with
    | .error m => .error m
    | .ok acc' => replay symbol rs acc'

/-- `{"type": "status", "message": "fetching_historical", ...}`. -/
def fetchingObj (symbol schema : String) : Obj :=
  [("type", .str "status"), ("message", .str "fetching_historical"),
    ("symbol", .str symbol), ("schema", .str schema)]

/-- The single aggregate line historical mode emits:
`{"type": "historical", "count": len(records), "records": records}`. -/
def historicalObj (recs : List Obj) : Obj :=
  [("type", .str "historical"), ("count", .int recs.length),
    ("records", .arr recs)]

/-- `run_historical` from the source, after the import check: emit
"fetching_historical"; inside `try`: `get_range` (its result — the record
range, or the message of the `Exception` it raised — is the `fetch`
argument), replay the range through `collect_record`, and emit the one
`historical` aggregate. Any `Exception` lands in the outer handler: one
error line, then `sys.exit(1)`; the locally collected `records` are
dropped. Returns the action trace and the process exit code. -/
def run_historical (symbol schema : String) (brokenAfter : Option Nat)
    (fetch : Except String (List RawRecord)) : List Act × Nat :=
  match emit ⟨brokenAfter, 0, []⟩ (fetchingObj symbol schema) with
  | (st, some c) => (st.trace, c)
  | (st1, none) =>
    match fetch with
    | .error m =>
      match emit st1 (errorObj m) with
      | (st2, none) => (st2.trace, 1)
      | (st2, some c) => (st2.trace, c)
    | .ok recs =>
      match replay symbol recs [] with
      | .error m =>
        match emit st1 (errorObj m) with
        | (st2, none) => (st2.trace, 1)
        | (st2, some c) => (st2.trace, c)
      | .ok objs =>
        match emit st1 (historicalObj objs) with
        | (st2, none) => (st2.trace, 0)
        | (st2, some c) => (st2.trace, c)

/-- Whether mapping this record can raise: only the timestamp conversion
of a trade/bar (or nonempty quote) can. Used to state fault-freeness
hypotheses. -/
def tsOk (ts : PyVal) : Bool :=
  match format_timestamp ts with
  | .ok _ => true
  | .error _ => false

/-- The value `collect_record` appends for one record, `none` for record
types historical mode ignores or when the timestamp conversion raises.
Spec-side companion of `collect_record` used to state the order/filter
property. -/
def histPure (symbol : String) : RawRecord → Option Obj
  | .ohlcvMsg ts o h l c v =>
    match format_timestamp ts with
    | .ok t => some [("type", .str "ohlcv"), ("ts", .str t),
        ("open", px o), ("high", px h), ("low", px l), ("close", px c),
        ("volume", .int v), ("symbol", .str symbol)]
    | .error _ => none
  | .tradeMsg ts p sz _ _ =>
    match format_timestamp ts with
    | .ok t => some [("type", .str "trade"), ("ts", .str t),
        ("price", px p), ("size", .int sz), ("symbol", .str symbol)]
    | .error _ => none
  | _ => none

/-- Records historical mode collects: trades and bars. -/
def isTradeOrBar : RawRecord → Bool
  | .tradeMsg _ _ _ _ _ => true
  | .ohlcvMsg _ _ _ _ _ _ => true
  | _ => false

/-- A record whose historical mapping cannot raise. -/
def histFaultFree : RawRecord → Bool
  | .tradeMsg ts _ _ _ _ => tsOk ts
  | .ohlcvMsg ts _ _ _ _ _ => tsOk ts
  | _ => true

/-- The keys of an emitted object, in order. -/
def keysOf (o : Obj) : List String := o.map Prod.fst

/-- The nanosecond values whose instant `datetime.fromtimestamp` accepts:
the microsecond count (rounded as in `format_timestamp`) lies between
`datetime.min` and `datetime.max`. -/
def inDatetimeRange (n : Int) : Prop :=
  minUsec ≤ (2 * n + 1000).fdiv 2000 ∧ (2 * n + 1000).fdiv 2000 ≤ maxUsec

instance (n : Int) : Decidable (inDatetimeRange n) := by
  unfold inDatetimeRange; infer_instance

/-- Output-stream well-formedness against a reader that disconnects after
`k` lines: the successful-write counter matches the lines in the trace and
never exceeds `k`. -/
def TraceInv (k : Nat) (st : OutState) : Prop :=
  st.brokenAfter = some k ∧ st.nWritten = (eventsOf st.trace).length ∧
    st.nWritten ≤ k

end Databento

open Databento

/-- A write on a never-breaking pipe succeeds and appends its line. -/
theorem emit_none {st : OutState} (e : Obj) (h : st.brokenAfter = none) :
    emit st e =
      ({ st with nWritten := st.nWritten + 1, trace := st.trace ++ [.ev e] },
        none) := by
  rcases st with ⟨b, n, tr⟩
  cases h
  rfl

/-- On a healthy pipe one loop iteration never exits and keeps the pipe
healthy. -/
theorem liveBodyStep_healthy (symbol : String) (st : OutState)
    (r : RawRecord) (h : st.brokenAfter = none) :
    (liveBodyStep symbol st r).2 = none ∧
      (liveBodyStep symbol st r).1.brokenAfter = none := by
  rcases hE : recordEvent symbol r with m | _ | e
  · simp only [liveBodyStep, processRecord, hE]
    rw [emit_none _ h]
    exact ⟨rfl, h⟩
  · simp only [liveBodyStep, processRecord, hE]
    exact ⟨trivial, h⟩
  · simp only [liveBodyStep, processRecord, hE]
    rw [emit_none _ h]
    exact ⟨rfl, h⟩

/-- On a healthy pipe the live loop runs the whole feed without exiting. -/
theorem liveLoop_healthy (symbol : String) (st : OutState)
    (rs : List RawRecord) (h : st.brokenAfter = none) :
    (liveLoop symbol st rs).2 = none ∧
      (liveLoop symbol st rs).1.brokenAfter = none := by
  induction rs generalizing st with
  | nil => exact ⟨rfl, h⟩
  | cons r rs ih =>
    have hb := liveBodyStep_healthy symbol st r h
    rcases hS : liveBodyStep symbol st r with ⟨st', e⟩
    rw [hS] at hb
    cases e with
    | some c => exact absurd hb.1 (by simp)
    | none =>
      simp only [liveLoop, hS]
      exact ih st' hb.2

/-- A write appends at most its own line to the trace. -/
theorem emit_trace (st : OutState) (e : Obj) :
    ∃ tl, (emit st e).1.trace = st.trace ++ tl := by
  unfold emit
  rcases st with ⟨b | k, n, tr⟩
  · exact ⟨[.ev e], rfl⟩
  · dsimp only
    split
    · exact ⟨[.ev e], rfl⟩
    · exact ⟨[], (List.append_nil tr).symm⟩

/-- One loop iteration only appends to the trace. -/
theorem liveBodyStep_trace (symbol : String) (st : OutState)
    (r : RawRecord) :
    ∃ tl, (liveBodyStep symbol st r).1.trace = st.trace ++ tl := by
  rcases hE : recordEvent symbol r with m | _ | e
  · obtain ⟨tl, htl⟩ := emit_trace st (procErrObj m)
    rcases hem : emit st (procErrObj m) with ⟨st', c⟩
    rw [hem] at htl
    simp only [liveBodyStep, processRecord, hE, hem]
    cases c <;> exact ⟨tl, htl⟩
  · exact ⟨[], by simp [liveBodyStep, processRecord, hE]⟩
  · obtain ⟨tl, htl⟩ := emit_trace st e
    rcases hem : emit st e with ⟨st', c⟩
    rw [hem] at htl
    simp only [liveBodyStep, processRecord, hE, hem]
    cases c <;> exact ⟨tl, htl⟩

/-- The live loop only appends to the trace. -/
theorem liveLoop_trace (symbol : String) (st : OutState)
    (rs : List RawRecord) :
    ∃ tl, (liveLoop symbol st rs).1.trace = st.trace ++ tl := by
  induction rs generalizing st with
  | nil => exact ⟨[], (List.append_nil st.trace).symm⟩
  | cons r rs ih =>
    obtain ⟨tl, htl⟩ := liveBodyStep_trace symbol st r
    rcases hS : liveBodyStep symbol st r with ⟨st', e⟩
    rw [hS] at htl
    replace htl : st'.trace = st.trace ++ tl := htl
    cases e with
    | none =>
      obtain ⟨tl', htl'⟩ := ih st'
      refine ⟨tl ++ tl', ?_⟩
      simp only [liveLoop, hS]
      rw [htl', htl, List.append_assoc]
    | some c =>
      refine ⟨tl, ?_⟩
      simp only [liveLoop, hS]
      exact htl

/-- A fault-free record is collected exactly as `histPure` describes:
its mapped dict is appended for a trade/bar, nothing for any other
type. -/
theorem collect_record_ok (symbol : String) (acc : List Obj)
    (r : RawRecord) (h : histFaultFree r = true) :
    collect_record symbol acc r = .ok (acc ++ (histPure symbol r).toList) := by
  cases r with
  | tradeMsg ts p sz a sd =>
    simp only [histFaultFree, tsOk] at h
    rcases hT : format_timestamp ts with m | t
    · rw [hT] at h; exact absurd h (by simp)
    · simp only [collect_record, histPure, hT, Except.bind, bind, pure]
      rfl
  | ohlcvMsg ts o hi lo c v =>
    simp only [histFaultFree, tsOk] at h
    rcases hT : format_timestamp ts with m | t
    · rw [hT] at h; exact absurd h (by simp)
    · simp only [collect_record, histPure, hT, Except.bind, bind, pure]
      rfl
  | mbp1Msg ts levels => simp [collect_record, histPure, pure, Except.pure]
  | errorMsg err => simp [collect_record, histPure, pure, Except.pure]
  | systemMsg msg => simp [collect_record, histPure, pure, Except.pure]
  | otherMsg => simp [collect_record, histPure, pure, Except.pure]

/-- A fault-free replay collects exactly the in-order image of the feed
under `histPure`, appended to the accumulator. -/
theorem replay_ok (symbol : String) (rs : List RawRecord) (acc : List Obj)
    (h : ∀ r ∈ rs, histFaultFree r = true) :
    replay symbol rs acc = .ok (acc ++ rs.filterMap (histPure symbol)) := by
  induction rs generalizing acc with
  | nil => simp [replay]
  | cons r rs ih =>
    have hr : histFaultFree r = true := h r (List.mem_cons_self r rs)
    have hrest : ∀ x ∈ rs, histFaultFree x = true :=
      fun x hx => h x (List.mem_cons_of_mem r hx)
    simp only [replay, collect_record_ok symbol acc r hr]
    rw [ih (acc ++ (histPure symbol r).toList) hrest]
    rcases hP : histPure symbol r with _ | o <;>
      simp [List.filterMap_cons, hP]

/-- Among fault-free records, exactly the trades and bars survive the
historical mapping, so the collected count is the trade/bar count. -/
theorem histPure_length (symbol : String) (rs : List RawRecord)
    (h : ∀ r ∈ rs, histFaultFree r = true) :
    (rs.filterMap (histPure symbol)).length =
      (rs.filter (fun r => isTradeOrBar r)).length := by
  induction rs with
  | nil => rfl
  | cons r rs ih =>
    have hr : histFaultFree r = true := h r (List.mem_cons_self r rs)
    have hrest : ∀ x ∈ rs, histFaultFree x = true :=
      fun x hx => h x (List.mem_cons_of_mem r hx)
    have hiso : (histPure symbol r).isSome = isTradeOrBar r := by
      cases r with
      | tradeMsg ts p sz a sd =>
        simp only [histFaultFree, tsOk] at hr
        rcases hT : format_timestamp ts with m | t
        · rw [hT] at hr; exact absurd hr (by simp)
        · simp [histPure, isTradeOrBar, hT]
      | ohlcvMsg ts o hi lo c v =>
        simp only [histFaultFree, tsOk] at hr
        rcases hT : format_timestamp ts with m | t
        · rw [hT] at hr; exact absurd hr (by simp)
        · simp [histPure, isTradeOrBar, hT]
      | mbp1Msg ts levels => simp [histPure, isTradeOrBar]
      | errorMsg err => simp [histPure, isTradeOrBar]
      | systemMsg msg => simp [histPure, isTradeOrBar]
      | otherMsg => simp [histPure, isTradeOrBar]
    rcases hP : histPure symbol r with _ | o
    · rw [hP] at hiso
      simp [List.filterMap_cons, List.filter_cons, hP, ← hiso, ih hrest]
    · rw [hP] at hiso
      simp [List.filterMap_cons, List.filter_cons, hP, ← hiso, ih hrest]

/-- C1: in live mode a fault while processing one record neither ends the
session nor drops later records: a feed [valid, faulting, valid] yields the
first record's event, one error event carrying the fault description
(prefixed "Record processing error: "), then the second valid record's
event, and the session runs on to its normal end (exit 0). -/
theorem C1_live_fault_isolation (symbol schema : String)
    (r1 rf r2 : RawRecord) (e1 e2 : Obj) (m : String)
    (h1 : recordEvent symbol r1 = .ok (some e1))
    (hf : recordEvent symbol rf = .error m)
    (h2 : recordEvent symbol r2 = .ok (some e2)) :
    run_live_stream symbol schema none none [r1, rf, r2] =
      ([.ev (connectingObj symbol schema), .subscribe,
        .ev (connectedObj symbol schema), .ev streamingObj,
        .ev e1, .ev (procErrObj m), .ev e2, .ev disconnectedObj], 0) := by
  simp [run_live_stream, liveLoop, liveBodyStep, processRecord, emit,
    h1, hf, h2]

/-- C1 witness: a concrete feed where the middle trade faults (timestamp
far beyond the `datetime` range) between two valid trades. -/
theorem C1_live_fault_isolation_witness :
    run_live_stream "ES" "trades" none none
      [.tradeMsg (.int 0) 6000250000000 1 (some "A") none,
       .tradeMsg (.int (10 ^ 30)) 1 1 none none,
       .tradeMsg (.int 1000000000) 5 2 none (some "B")] =
      ([.ev (connectingObj "ES" "trades"), .subscribe,
        .ev (connectedObj "ES" "trades"), .ev streamingObj,
        .ev [("type", .str "trade"),
          ("ts", .str "1970-01-01T00:00:00+00:00"),
          ("price", px 6000250000000), ("size", .int 1),
          ("symbol", .str "ES"), ("action", .str "A"), ("side", .null)],
        .ev (procErrObj "timestamp out of range"),
        .ev [("type", .str "trade"),
          ("ts", .str "1970-01-01T00:00:01+00:00"), ("price", px 5),
          ("size", .int 2), ("symbol", .str "ES"), ("action", .null),
          ("side", .str "B")],
        .ev disconnectedObj], 0) :=
  C1_live_fault_isolation "ES" "trades" _ _ _ _ _ _ rfl rfl rfl

/-- C2: a fault-free historical run over any record range emits exactly
one historical event (after the fetching status); its record list is the
in-order image of the trade/bar records, its count (the list length, by
`historicalObj`) equals the number of trade/bar records, and every
non-trade/non-bar record contributes nothing. -/
theorem C2_historical_aggregate (symbol schema : String)
    (records : List RawRecord)
    (h : ∀ r ∈ records, histFaultFree r = true) :
    run_historical symbol schema none (.ok records) =
      ([.ev (fetchingObj symbol schema),
        .ev (historicalObj (records.filterMap (histPure symbol)))], 0) ∧
    (records.filterMap (histPure symbol)).length =
      (records.filter (fun r => isTradeOrBar r)).length ∧
    ∀ r, isTradeOrBar r = false → histPure symbol r = none := by
  refine ⟨?_, histPure_length symbol records h, ?_⟩
  · have hr := replay_ok symbol records [] h
    rw [List.nil_append] at hr
    simp [run_historical, emit, hr]
  · intro r hfalse
    cases r <;> simp_all [isTradeOrBar, histPure]

/-- C2 witness: a concrete range of one trade, one system notice and one
bar yields one historical event collecting exactly the trade and the
bar. -/
theorem C2_historical_aggregate_witness :
    run_historical "ES" "t" none
      (.ok [.tradeMsg (.int 0) 5 1 none none, .systemMsg (some "x"),
        .ohlcvMsg (.int 0) 1 2 3 4 10]) =
      ([.ev (fetchingObj "ES" "t"),
        .ev (historicalObj
          (([.tradeMsg (.int 0) 5 1 none none, .systemMsg (some "x"),
            .ohlcvMsg (.int 0) 1 2 3 4 10] : List RawRecord).filterMap
              (histPure "ES")))], 0) :=
  (C2_historical_aggregate "ES" "t"
    [.tradeMsg (.int 0) 5 1 none none, .systemMsg (some "x"),
      .ohlcvMsg (.int 0) 1 2 3 4 10] (by decide)).1

/-- C8: when the historical range query or the replay raises, the run
emits exactly one error event after the fetching status — no historical
event, the partially collected records discarded — and exits with code 1. -/
theorem C8_historical_fault (symbol schema m : String)
    (fetch : Except String (List RawRecord))
    (h : fetch = .error m ∨
      ∃ recs, fetch = .ok recs ∧ replay symbol recs [] = .error m) :
    run_historical symbol schema none fetch =
      ([.ev (fetchingObj symbol schema), .ev (errorObj m)], 1) := by
  rcases h with h | ⟨recs, hfetch, hrep⟩
  · subst h
    simp [run_historical, emit]
  · subst hfetch
    simp [run_historical, emit, hrep]

/-- C8 witness: a rejected query produces the fetching status, one error
event and exit code 1. -/
theorem C8_historical_fault_witness :
    run_historical "ES" "t" none (.error "query rejected") =
      ([.ev (fetchingObj "ES" "t"), .ev (errorObj "query rejected")], 1) :=
  C8_historical_fault "ES" "t" "query rejected" _ (Or.inl rfl)

/-- C3, counterexample: `format_timestamp` does have an error path. At the
integer input `10 ^ 30` the intermediate `seconds = 1e21` is far beyond
`datetime.max`, so `datetime.fromtimestamp` raises and no string is
returned. -/
theorem C3_cex_overflow :
    format_timestamp (.int (10 ^ 30)) = .error "timestamp out of range" :=
  rfl

/-- C3, amended: for every integer input whose instant lies in the range
`datetime` can represent, `format_timestamp` returns an ISO-8601 UTC string
carrying the `+00:00` offset, and every non-integer input is passed through
as its string form; integer inputs outside that range raise instead. -/
theorem C3_format_timestamp_amended :
    (∀ n : Int, inDatetimeRange n →
      ∃ s t, format_timestamp (.int n) = .ok s ∧ s = t ++ "+00:00") ∧
    (∀ s : String, format_timestamp (.other s) = .ok s) := by
  constructor
  · intro n hn
    refine ⟨isoformatUTC ((2 * n + 1000).fdiv 2000), ?_, ?_, ?_⟩
    · exact padNum 4 (civilFromDays ((((2 * n + 1000).fdiv 2000).ediv 1000000).ediv 86400 + 719468).toNat).1 ++ "-" ++
        padNum 2 (civilFromDays ((((2 * n + 1000).fdiv 2000).ediv 1000000).ediv 86400 + 719468).toNat).2.1 ++ "-" ++
        padNum 2 (civilFromDays ((((2 * n + 1000).fdiv 2000).ediv 1000000).ediv 86400 + 719468).toNat).2.2 ++ "T" ++
        padNum 2 (((((2 * n + 1000).fdiv 2000).ediv 1000000).emod 86400).toNat / 3600) ++ ":" ++
        padNum 2 (((((2 * n + 1000).fdiv 2000).ediv 1000000).emod 86400).toNat % 3600 / 60) ++ ":" ++
        padNum 2 (((((2 * n + 1000).fdiv 2000).ediv 1000000).emod 86400).toNat % 60) ++
        (if (((2 * n + 1000).fdiv 2000).emod 1000000).toNat = 0 then ""
         else "." ++ padNum 6 (((2 * n + 1000).fdiv 2000).emod 1000000).toNat)
    · have hn' : minUsec ≤ (2 * n + 1000).fdiv 2000 ∧
          (2 * n + 1000).fdiv 2000 ≤ maxUsec := hn
      simp only [format_timestamp]
      rw [if_pos hn']
    · rfl
  · intro s
    rfl

/-- C3 witness: the in-range integer 0 yields the epoch instant with its
UTC offset, and a non-integer input passes through unchanged. -/
theorem C3_format_timestamp_amended_witness :
    (∃ s t, format_timestamp (.int 0) = .ok s ∧ s = t ++ "+00:00") ∧
    format_timestamp (.other "abc") = .ok "abc" :=
  ⟨C3_format_timestamp_amended.1 0 (by decide),
    C3_format_timestamp_amended.2 "abc"⟩

/-- C4: a trade record with fixed-point price `P` and size `S` maps to a
trade event with price `P / 1e9`, size `S`, and `action`/`side` equal to
the record's values when present and null when absent — mapping never fails
on absent `action`/`side` (they are arbitrary `Option`s here, including
`none`). -/
theorem C4_trade_mapping (symbol : String) (ts : PyVal) (p sz : Int)
    (a sd : Option String) (t : String) (h : format_timestamp ts = .ok t) :
    recordEvent symbol (.tradeMsg ts p sz a sd) =
      .ok (some [("type", .str "trade"), ("ts", .str t),
        ("price", .num ((p : ℚ) / 10 ^ 9)), ("size", .int sz),
        ("symbol", .str symbol),
        ("action", match a with | some x => .str x | none => .null),
        ("side", match sd with | some x => .str x | none => .null)]) := by
  simp only [recordEvent, h, Except.bind, bind, pure, px, optStr]
  cases a <;> cases sd <;> rfl

/-- C4 witness at a concrete trade: price 6000.25 as fixed point, absent
action, present side. -/
theorem C4_trade_mapping_witness :
    recordEvent "ES.FUT" (.tradeMsg (.int 0) 6000250000000 1 none (some "B")) =
      .ok (some [("type", .str "trade"),
        ("ts", .str "1970-01-01T00:00:00+00:00"),
        ("price", .num ((6000250000000 : ℚ) / 10 ^ 9)), ("size", .int 1),
        ("symbol", .str "ES.FUT"), ("action", .null), ("side", .str "B")]) :=
  C4_trade_mapping "ES.FUT" (.int 0) 6000250000000 1 none (some "B")
    "1970-01-01T00:00:00+00:00" rfl

/-- C5: a top-of-book quote record with an empty level list produces no
event and no error; with a level present it produces exactly one quote
event built from level zero only (the tail is ignored), each absent
bid/ask price or size rendered as null. -/
theorem C5_quote_mapping (symbol : String) (ts : PyVal) :
    recordEvent symbol (.mbp1Msg ts []) = .ok none ∧
    ∀ (level : Level) (rest : List Level) (t : String),
      format_timestamp ts = .ok t →
      recordEvent symbol (.mbp1Msg ts (level :: rest)) =
        .ok (some [("type", .str "quote"), ("ts", .str t),
          ("bid", match level.bid_px with | some p => px p | none => .null),
          ("ask", match level.ask_px with | some p => px p | none => .null),
          ("bid_size",
            match level.bid_sz with | some n => .int n | none => .null),
          ("ask_size",
            match level.ask_sz with | some n => .int n | none => .null),
          ("symbol", .str symbol)]) := by
  refine ⟨rfl, ?_⟩
  intro level rest t h
  simp only [recordEvent, h, Except.bind, bind, pure]
  rcases level with ⟨bp, ap, bs, as⟩
  cases bp <;> cases ap <;> cases bs <;> cases as <;> rfl

/-- C5 witness: the empty-level quote is skipped; a one-level quote with
only a bid price and an ask size yields one quote event with nulls for the
absent ask price and bid size. -/
theorem C5_quote_mapping_witness :
    recordEvent "ES" (.mbp1Msg (.int 0) []) = .ok none ∧
    recordEvent "ES" (.mbp1Msg (.int 0) [⟨some 6000000000000, none, none, some 15⟩]) =
      .ok (some [("type", .str "quote"),
        ("ts", .str "1970-01-01T00:00:00+00:00"),
        ("bid", px 6000000000000), ("ask", .null), ("bid_size", .null),
        ("ask_size", .int 15), ("symbol", .str "ES")]) :=
  ⟨(C5_quote_mapping "ES" (.int 0)).1,
    (C5_quote_mapping "ES" (.int 0)).2 ⟨some 6000000000000, none, none, some 15⟩
      [] "1970-01-01T00:00:00+00:00" rfl⟩

/-- C10: the historical mapping of a trade record emits exactly the keys
`type, ts, price, size, symbol` — no `action`/`side` keys at all — while
the live mapping of the same record always carries `action` and `side`
keys (null-valued when absent on the record). -/
theorem C10_hist_vs_live_trade_keys (symbol : String) (ts : PyVal)
    (p sz : Int) (a sd : Option String) (t : String)
    (h : format_timestamp ts = .ok t) :
    ∃ oh ol : Obj,
      collect_record symbol [] (.tradeMsg ts p sz a sd) = .ok [oh] ∧
      recordEvent symbol (.tradeMsg ts p sz a sd) = .ok (some ol) ∧
      keysOf oh = ["type", "ts", "price", "size", "symbol"] ∧
      keysOf ol =
        ["type", "ts", "price", "size", "symbol", "action", "side"] ∧
      "action" ∉ keysOf oh ∧ "side" ∉ keysOf oh := by
  refine ⟨[("type", .str "trade"), ("ts", .str t), ("price", px p),
      ("size", .int sz), ("symbol", .str symbol)],
    [("type", .str "trade"), ("ts", .str t), ("price", px p),
      ("size", .int sz), ("symbol", .str symbol), ("action", optStr a),
      ("side", optStr sd)], ?_, ?_, rfl, rfl, by simp [keysOf],
    by simp [keysOf]⟩
  · simp only [collect_record, h, Except.bind, bind, pure]
    rfl
  · simp only [recordEvent, h, Except.bind, bind, pure, px]
    rfl

/-- C10 witness at a concrete trade record carrying both optional
fields. -/
theorem C10_hist_vs_live_trade_keys_witness :
    ∃ oh ol : Obj,
      collect_record "ES" [] (.tradeMsg (.int 0) 5 1 (some "A") (some "B")) =
        .ok [oh] ∧
      recordEvent "ES" (.tradeMsg (.int 0) 5 1 (some "A") (some "B")) =
        .ok (some ol) ∧
      keysOf oh = ["type", "ts", "price", "size", "symbol"] ∧
      keysOf ol =
        ["type", "ts", "price", "size", "symbol", "action", "side"] ∧
      "action" ∉ keysOf oh ∧ "side" ∉ keysOf oh :=
  C10_hist_vs_live_trade_keys "ES" (.int 0) 5 1 (some "A") (some "B")
    "1970-01-01T00:00:00+00:00" rfl

@[simp]
theorem eventsOf_append (t1 t2 : List Act) :
    eventsOf (t1 ++ t2) = eventsOf t1 ++ eventsOf t2 := by
  simp [eventsOf]

@[simp]
theorem eventsOf_ev (e : Obj) : eventsOf [.ev e] = [e] := rfl

@[simp]
theorem eventsOf_subscribe : eventsOf [.subscribe] = [] := rfl

/-- A write on a pipe that is broken right now exits with code 0 and
changes nothing. -/
theorem emit_at_break (st : OutState) (e : Obj)
    (hb : st.brokenAfter = some st.nWritten) : emit st e = (st, some 0) := by
  rcases st with ⟨b, n, tr⟩
  replace hb : b = some n := hb
  subst hb
  simp [emit]

/-- A write either succeeds into a state still satisfying the trace
invariant, or the pipe is broken and the write exits with code 0 leaving
the state unchanged. -/
theorem emit_case (k : Nat) (st : OutState) (e : Obj) (h : TraceInv k st) :
    (∃ st', emit st e = (st', none) ∧ TraceInv k st') ∨
      emit st e = (st, some 0) := by
  obtain ⟨hb, hn, hk⟩ := h
  rcases st with ⟨b, n, tr⟩
  replace hb : b = some k := hb
  replace hn : n = (eventsOf tr).length := hn
  replace hk : n ≤ k := hk
  subst hb
  by_cases hlt : n < k
  · refine Or.inl ⟨⟨some k, n + 1, tr ++ [.ev e]⟩, ?_, rfl, ?_, hlt⟩
    · simp [emit, hlt]
    · simp [hn]
  · exact Or.inr (by simp [emit, hlt])

/-- One loop iteration, against a possibly broken pipe: it either
continues or exits with code 0, and the trace invariant is preserved
either way. -/
theorem liveBodyStep_case (symbol : String) (k : Nat) (st : OutState)
    (r : RawRecord) (h : TraceInv k st) :
    ∃ st' c, liveBodyStep symbol st r = (st', c) ∧ TraceInv k st' ∧
      (c = none ∨ c = some 0) := by
  rcases hE : recordEvent symbol r with m | _ | e
  · rcases emit_case k st (procErrObj m) h with ⟨st', hem, h'⟩ | hem
    · exact ⟨st', none, by simp [liveBodyStep, processRecord, hE, hem],
        h', Or.inl rfl⟩
    · exact ⟨st, some 0, by simp [liveBodyStep, processRecord, hE, hem],
        h, Or.inr rfl⟩
  · exact ⟨st, none, by simp [liveBodyStep, processRecord, hE], h,
      Or.inl rfl⟩
  · rcases emit_case k st e h with ⟨st', hem, h'⟩ | hem
    · exact ⟨st', none, by simp [liveBodyStep, processRecord, hE, hem],
        h', Or.inl rfl⟩
    · exact ⟨st, some 0, by simp [liveBodyStep, processRecord, hE, hem],
        h, Or.inr rfl⟩

/-- The live loop, against a possibly broken pipe: it either finishes the
feed or exits with code 0, preserving the trace invariant. -/
theorem liveLoop_case (symbol : String) (k : Nat) (st : OutState)
    (rs : List RawRecord) (h : TraceInv k st) :
    ∃ st' c, liveLoop symbol st rs = (st', c) ∧ TraceInv k st' ∧
      (c = none ∨ c = some 0) := by
  induction rs generalizing st with
  | nil => exact ⟨st, none, rfl, h, Or.inl rfl⟩
  | cons r rs ih =>
    obtain ⟨st', c, hS, h', hc⟩ := liveBodyStep_case symbol k st r h
    rcases hc with hc | hc
    · subst hc
      obtain ⟨st'', c', hL, h'', hc'⟩ := ih st' h'
      exact ⟨st'', c', by simp [liveLoop, hS, hL], h'', hc'⟩
    · subst hc
      exact ⟨st', some 0, by simp [liveLoop, hS], h', Or.inr rfl⟩

/-- Against a reader that disconnects after `k` lines, a live run always
ends with exit code 0 and never gets more than `k` lines out. -/
theorem run_live_broken (symbol schema : String) (k : Nat)
    (records : List RawRecord) :
    (run_live_stream symbol schema (some k) none records).2 = 0 ∧
    (eventsOf (run_live_stream symbol schema (some k) none records).1).length
      ≤ k := by
  have h0 : TraceInv k ⟨some k, 0, []⟩ := ⟨rfl, rfl, Nat.zero_le k⟩
  rcases emit_case k _ (connectingObj symbol schema) h0 with
    ⟨st1, hem1, h1⟩ | hem1
  · have h2 : TraceInv k { st1 with trace := st1.trace ++ [.subscribe] } := by
      obtain ⟨hb, hn, hk⟩ := h1
      exact ⟨hb, by simp [hn], hk⟩
    rcases emit_case k _ (connectedObj symbol schema) h2 with
      ⟨st3, hem3, h3⟩ | hem3
    · rcases emit_case k _ streamingObj h3 with ⟨st4, hem4, h4⟩ | hem4
      · obtain ⟨st5, c5, hLL, h5, hc5⟩ := liveLoop_case symbol k st4 records h4
        rcases hc5 with hc5 | hc5
        · subst hc5
          rcases emit_case k st5 disconnectedObj h5 with
            ⟨st6, hem6, h6⟩ | hem6
          · constructor
            · simp [run_live_stream, hem1, hem3, hem4, hLL, hem6]
            · simp only [run_live_stream, hem1, hem3, hem4, hLL, hem6]
              exact h6.2.1 ▸ h6.2.2
          · constructor
            · simp [run_live_stream, hem1, hem3, hem4, hLL, hem6]
            · simp only [run_live_stream, hem1, hem3, hem4, hLL, hem6]
              exact h5.2.1 ▸ h5.2.2
        · subst hc5
          constructor
          · simp [run_live_stream, hem1, hem3, hem4, hLL]
          · simp only [run_live_stream, hem1, hem3, hem4, hLL]
            exact h5.2.1 ▸ h5.2.2
      · constructor
        · simp [run_live_stream, hem1, hem3, hem4]
        · simp only [run_live_stream, hem1, hem3, hem4]
          exact h3.2.1 ▸ h3.2.2
    · constructor
      · simp [run_live_stream, hem1, hem3]
      · simp only [run_live_stream, hem1, hem3]
        exact h2.2.1 ▸ h2.2.2
  · constructor
    · simp [run_live_stream, hem1]
    · simp [run_live_stream, hem1, eventsOf]

/-- C6: when the downstream reader has disconnected (its pipe accepts `k`
lines then breaks), the process always ends with exit code 0 and never
emits more than the `k` lines the reader consumed — in particular no error
event for a failed write. Moreover a broken-pipe `SystemExit` raised while
processing a record inside the live loop is not intercepted by the
per-record `except Exception` handler: whether the record's own emit or
the fault handler's error emit hits the broken pipe, the iteration returns
the exit (code 0) at once with the state unchanged. -/
theorem C6_broken_pipe (symbol schema : String) (k : Nat)
    (records : List RawRecord) :
    (run_live_stream symbol schema (some k) none records).2 = 0 ∧
    (eventsOf (run_live_stream symbol schema (some k) none records).1).length
      ≤ k ∧
    (∀ st r m, st.brokenAfter = some st.nWritten →
      recordEvent symbol r = .error m →
      liveBodyStep symbol st r = (st, some 0)) ∧
    (∀ st r e, st.brokenAfter = some st.nWritten →
      recordEvent symbol r = .ok (some e) →
      liveBodyStep symbol st r = (st, some 0)) := by
  refine ⟨(run_live_broken symbol schema k records).1,
    (run_live_broken symbol schema k records).2, ?_, ?_⟩
  · intro st r m hb hE
    simp [liveBodyStep, processRecord, hE, emit_at_break st _ hb]
  · intro st r e hb hE
    simp [liveBodyStep, processRecord, hE, emit_at_break st _ hb]

/-- C6 witness: a two-trade feed against a reader that stops after the
first line exits 0, and a loop iteration whose write hits an
already-broken pipe exits 0 at once, both for a faulting record (the
handler's error write fails) and for a valid one (its own write fails). -/
theorem C6_broken_pipe_witness :
    (run_live_stream "ES" "t" (some 1) none
      [.tradeMsg (.int 0) 5 1 none none,
       .tradeMsg (.int 0) 6 1 none none]).2 = 0 ∧
    liveBodyStep "ES" ⟨some 1, 1, []⟩
      (.tradeMsg (.int (10 ^ 30)) 1 1 none none) = (⟨some 1, 1, []⟩, some 0) ∧
    liveBodyStep "ES" ⟨some 1, 1, []⟩ (.tradeMsg (.int 0) 5 1 none none) =
      (⟨some 1, 1, []⟩, some 0) :=
  ⟨(C6_broken_pipe "ES" "t" 1
      [.tradeMsg (.int 0) 5 1 none none,
       .tradeMsg (.int 0) 6 1 none none]).1,
    (C6_broken_pipe "ES" "t" 1 []).2.2.1 ⟨some 1, 1, []⟩
      (.tradeMsg (.int (10 ^ 30)) 1 1 none none) "timestamp out of range"
      rfl rfl,
    (C6_broken_pipe "ES" "t" 1 []).2.2.2 ⟨some 1, 1, []⟩
      (.tradeMsg (.int 0) 5 1 none none)
      [("type", .str "trade"), ("ts", .str "1970-01-01T00:00:00+00:00"),
        ("price", px 5), ("size", .int 1), ("symbol", .str "ES"),
        ("action", .null), ("side", .null)] rfl rfl⟩

/-- C7: a termination signal delivered at any loop boundary of a live
session (after any number `k` of processed records, the pipe healthy)
makes the handler emit exactly one final shutting-down status and end the
process with exit code 0; nothing is emitted after it, whatever state the
loop was in. -/
theorem C7_sigterm_shutdown (symbol schema : String)
    (records : List RawRecord) (k : Nat) :
    run_live_stream_sig symbol schema none records k =
      ((liveLoop symbol
          ⟨none, 3, [.ev (connectingObj symbol schema), .subscribe,
            .ev (connectedObj symbol schema), .ev streamingObj]⟩
          (records.take k)).1.trace ++ [.ev shuttingDownObj], 0) ∧
    (run_live_stream_sig symbol schema none records k).1.getLast? =
      some (.ev shuttingDownObj) := by
  have hl := liveLoop_healthy symbol
    ⟨none, 3, [.ev (connectingObj symbol schema), .subscribe,
      .ev (connectedObj symbol schema), .ev streamingObj]⟩
    (records.take k) rfl
  rcases hLL : liveLoop symbol
      ⟨none, 3, [.ev (connectingObj symbol schema), .subscribe,
        .ev (connectedObj symbol schema), .ev streamingObj]⟩
      (records.take k) with ⟨st5, e5⟩
  rw [hLL] at hl
  cases e5 with
  | some c => exact absurd hl.1 (by simp)
  | none =>
    have hb5 : st5.brokenAfter = none := hl.2
    have h1 : run_live_stream_sig symbol schema none records k =
        (st5.trace ++ [.ev shuttingDownObj], 0) := by
      simp [run_live_stream_sig, emit, handle_sigterm, hLL, hb5]
    refine ⟨?_, ?_⟩
    · exact h1
    · rw [h1]
      simp

/-- C7 witness: interrupting a concrete one-trade feed right after its
record is processed yields the trade event followed by the shutting-down
status, exit code 0. -/
theorem C7_sigterm_shutdown_witness :
    run_live_stream_sig "ES" "t" none [.tradeMsg (.int 0) 5 1 none none] 1 =
      ((liveLoop "ES"
          ⟨none, 3, [.ev (connectingObj "ES" "t"), .subscribe,
            .ev (connectedObj "ES" "t"), .ev streamingObj]⟩
          (([.tradeMsg (.int 0) 5 1 none none] :
            List RawRecord).take 1)).1.trace ++ [.ev shuttingDownObj], 0) ∧
    (run_live_stream_sig "ES" "t" none
      [.tradeMsg (.int 0) 5 1 none none] 1).1.getLast? =
      some (.ev shuttingDownObj) :=
  C7_sigterm_shutdown "ES" "t" [.tradeMsg (.int 0) 5 1 none none] 1

/-- C9: on the live success path the trace starts, in this exact order,
with the connecting status, then the subscription call, then the connected
status immediately followed by the distinct streaming status; everything
else — record events included — comes strictly after. -/
theorem C9_lifecycle_order (symbol schema : String)
    (records : List RawRecord) :
    ∃ tl, (run_live_stream symbol schema none none records).1 =
      [.ev (connectingObj symbol schema), .subscribe,
        .ev (connectedObj symbol schema), .ev streamingObj] ++ tl := by
  have hl := liveLoop_healthy symbol
    ⟨none, 3, [.ev (connectingObj symbol schema), .subscribe,
      .ev (connectedObj symbol schema), .ev streamingObj]⟩ records rfl
  obtain ⟨d, hd⟩ := liveLoop_trace symbol
    ⟨none, 3, [.ev (connectingObj symbol schema), .subscribe,
      .ev (connectedObj symbol schema), .ev streamingObj]⟩ records
  rcases hLL : liveLoop symbol
      ⟨none, 3, [.ev (connectingObj symbol schema), .subscribe,
        .ev (connectedObj symbol schema), .ev streamingObj]⟩
      records with ⟨st5, e5⟩
  rw [hLL] at hl hd
  replace hd : st5.trace =
    [.ev (connectingObj symbol schema), .subscribe,
      .ev (connectedObj symbol schema), .ev streamingObj] ++ d := hd
  cases e5 with
  | some c => exact absurd hl.1 (by simp)
  | none =>
    have hb5 : st5.brokenAfter = none := hl.2
    refine ⟨d ++ [.ev disconnectedObj], ?_⟩
    simp [run_live_stream, emit, hLL, hd, hb5]
